import Mathlib

/-!
Verification of the CodaMOSA search-engine strategy
(`pynguin/generation/algorithms/llmmosastrategy.py`) and of the generic
accessible-object wrappers (`pynguin/utils/generic/genericaccessibleobject.py`),
shallowly embedded in Lean.

Chromosomes and test cases are represented by an arbitrary type `C`
(Python is dynamically typed; the `TestCaseChromosome(test_case, factory)`
wrapper and the `cast` at line 102 of the strategy file are identity at the
level of the candidate data we track).  External collaborators that are not
part of the two source files (the ranking function, the diversity
assignment, the archive, the random number generator, the breeder and the
language-model seeding) are passed in as explicit parameters, exactly at
the interface granularity the source code uses them.
-/

namespace CodaMOSA

/-- Stable insertion of `x` into a list already sorted by strictly
descending key: `x` is placed before the first element whose key is not
larger, matching the stable behaviour of Python's `list.sort(key=...,
reverse=True)` for the elements processed so far. -/
def insertDesc {C : Type} (key : C → Int) (x : C) : List C → List C
  | [] => [x]
  | y :: ys => if key y ≤ key x then x :: y :: ys else y :: insertDesc key x ys

/-- Stable descending sort by an integer key; models
`front.sort(key=lambda t: t.distance, reverse=True)` (line 159 of
`llmmosastrategy.py`): Python's sort is stable, and reverse-sorting by the
key keeps equal-keyed elements in their original relative order. -/
def sortDesc {C : Type} (key : C → Int) (l : List C) : List C :=
  l.foldr (insertDesc key) []

/-- The front-by-front admission loop of `evolve_common`
(lines 137-161 of `llmmosastrategy.py`), with the sequence of sub-fronts
returned by `compute_ranking_assignment` given as an explicit list.

`remain` starts as `len(self._population)`; while
`remain > 0 and remain >= len(front) != 0` a whole front is admitted
(diversity assignment mutates only each chromosome's scratch `distance`
field, given here by `d`, and does not change the admitted sequence), and
afterwards, if `remain > 0 and len(front) != 0`, the current front is
sorted by descending distance and its first `remain` members are admitted. -/
def truncationLoop {C : Type} (d : List C → C → Int) :
    Nat → List (List C) → List C
  | _, [] => []
  | remain, front :: rest =>
    if remain = 0 then []
    else if front.length ≠ 0 ∧ front.length ≤ remain then
      front ++ truncationLoop d (remain - front.length) rest
    else if front.length ≠ 0 then
      (sortDesc (d front) front).take remain
    else []

/-- `CodaMOSATestStrategy.evolve_common` (lines 114-163 of
`llmmosastrategy.py`): the union of the current population and the
offspring is ranked against the uncovered-goals snapshot, and the ranked
fronts are truncated back to the entry population's size.  `ranking`
stands for `self._ranking_function.compute_ranking_assignment` applied to
the fixed uncovered-goals snapshot, and `d` for the distances written by
`fast_epsilon_dominance_assignment`; both live outside the source files
under verification and are parameters.  The returned list is the new
population (`self._archive.update(self._population)` on line 163 acts on
the archive, not on the returned population). -/
def evolve_common {C : Type} (d : List C → C → Int)
    (ranking : List C → List (List C))
    (population offspring : List C) : List C :=
  truncationLoop d population.length (ranking (population ++ offspring))

/-- The truncation step as worded by the specification (§4.3 step 3
together with the empty-front rule of §7): walk fronts in rank order; a
front that fits entirely within the remaining capacity is admitted whole
after diversity assignment; the first front that does not fit entirely is
sorted by descending diversity distance and only its top
remaining-capacity members are admitted, everything later being discarded;
a front with zero members terminates the admission. -/
def truncationSpec {C : Type} (d : List C → C → Int) :
    Nat → List (List C) → List C
  | _, [] => []
  | remain, front :: rest =>
    if front.length = 0 then []
    else if front.length ≤ remain then
      front ++ truncationSpec d (remain - front.length) rest
    else (sortDesc (d front) front).take remain

/-- Failure modes of the seeding loop in `evolve_targeted`:
`emptyChoice` models the exception `randomness.choice` raises on an empty
sequence, `outOfBudget` models running out of the (externally bounded)
supply of random draws before the candidate set is full. -/
inductive TargetedError where
  | emptyChoice : TargetedError
  | outOfBudget : TargetedError
deriving DecidableEq

/-- The `while` loop of `evolve_targeted` (lines 97-105 of
`llmmosastrategy.py`): while the candidate set `chroms` has fewer than
`popSize` members, draw a uniformly random element of the *original*
seeded list `testCases` (`randomness.choice`, modelled by consuming one
index `p` from the stream `picks` and selecting position
`p % testCases.length`; on an empty sequence the lookup fails exactly as
`choice` raises), clone and mutate it (`mutateClone` is the composite
clone-then-`self._mutate` effect), and keep the mutant only if
`offspring.has_changed() and offspring.size() > 0`. -/
def growSeededCandidates {C : Type} (mutateClone : C → C) (changed : C → Bool)
    (size : C → Nat) (popSize : Nat) (testCases : List C) :
    List Nat → List C → Except TargetedError (List C)
  | [], chroms =>
    if chroms.length < popSize then Except.error TargetedError.outOfBudget
    else Except.ok chroms
  | p :: ps, chroms =>
    if chroms.length < popSize then
      match testCases.get? (p % testCases.length) with
      | none => Except.error TargetedError.emptyChoice
      | some toMutate =>
        let offspring := mutateClone toMutate
        if changed offspring ∧ 0 < size offspring then
          growSeededCandidates mutateClone changed size popSize testCases ps
            (chroms ++ [offspring])
        else
          growSeededCandidates mutateClone changed size popSize testCases ps chroms
    else Except.ok chroms

/-- `CodaMOSATestStrategy.evolve_targeted` (lines 86-107 of
`llmmosastrategy.py`).  `testCases` is the sequence returned by
`languagemodelseeding.target_uncovered_functions(test_suite, 10)`; wrapping
each element as `tcc.TestCaseChromosome(test_case, self.test_factory)` is
identity on the candidate data tracked here.  The result, on success, is
the pair of (the grown candidate set `test_case_chromosomes`, the argument
actually passed to `evolve_common` on line 107 — which in the source is
`test_cases`, the raw seeded list, not the grown set). -/
def evolve_targeted {C : Type} (mutateClone : C → C) (changed : C → Bool)
    (size : C → Nat) (popSize : Nat) (picks : List Nat)
    (testCases : List C) : Except TargetedError (List C × List C) :=
  match growSeededCandidates mutateClone changed size popSize testCases picks
      testCases with
  | Except.error e => Except.error e
  | Except.ok grown => Except.ok (grown, testCases)

/-- Prepend a per-iteration flag (`true` = targeted step taken) to the
flag trace of a search-loop result. -/
def consFlag {σ : Type} (b : Bool) (r : σ × List Bool × Nat) :
    σ × List Bool × Nat :=
  (r.1, b :: r.2.1, r.2.2)

/-- The main `while` loop of `generate_tests` (lines 60-77 of
`llmmosastrategy.py`) over an abstract search state `σ`:
`resourcesLeft` is `self.resources_left()`, `coveredCount s` is
`len(self._archive.covered_goals)`, `numberOfGoals` is
`self._number_of_goals`, and `evolveStep`/`targetedStep` are the effect of
one `self.evolve()` resp.
`self.evolve_targeted(self.create_test_suite(self._archive.solutions))`
on the state (the `after_search_iteration` notification is a pure
side-effecting hook with no effect on the state tracked here).  `fuel`
bounds the number of iterations actually examined (the external stopping
condition guarantees the real loop performs finitely many).  Returns the
final state, the per-iteration trace of which branch was taken
(`true` = targeted), and the final value of `its_without_update`. -/
def generate_tests_loop {σ : Type} (resourcesLeft : σ → Bool)
    (coveredCount : σ → Nat) (numberOfGoals : Nat)
    (evolveStep targetedStep : σ → σ) :
    Nat → σ → Nat → Nat → σ × List Bool × Nat
  | 0, s, _, its => (s, [], its)
  | fuel + 1, s, last, its =>
    if resourcesLeft s && !(numberOfGoals - coveredCount s == 0) then
      let num := coveredCount s
      let its1 := if num = last then its + 1 else 0
      if its1 > 25 then
        consFlag true
          (generate_tests_loop resourcesLeft coveredCount numberOfGoals
            evolveStep targetedStep fuel (targetedStep s) num 0)
      else
        consFlag false
          (generate_tests_loop resourcesLeft coveredCount numberOfGoals
            evolveStep targetedStep fuel (evolveStep s) num its1)
    else (s, [], its)

/-- Modelled from the spec: `create_test_suite` (inherited from the
abstract strategy, not among the source files) builds a test-suite value
from a sequence of chromosomes (§6 "a test suite value constructed from a
sequence of Chromosomes"); it is represented by that sequence. -/
def create_test_suite {C : Type} (chromosomes : List C) : List C :=
  chromosomes

/-- The search state reached when the main loop of `generate_tests`
exits: the loop of lines 62-77 started with
`last_num_covered_goals = len(self._archive.covered_goals)` (line 60) and
`its_without_update = 0` (line 61). -/
def finalSearchState {σ : Type} (resourcesLeft : σ → Bool)
    (coveredCount : σ → Nat) (numberOfGoals : Nat)
    (evolveStep targetedStep : σ → σ) (fuel : Nat) (s0 : σ) : σ :=
  (generate_tests_loop resourcesLeft coveredCount numberOfGoals evolveStep
    targetedStep fuel s0 (coveredCount s0) 0).1

/-- The value returned by `generate_tests` (lines 79-84 of
`llmmosastrategy.py`): the suite built from the archive's `solutions` when
that sequence is non-empty, else from `self._get_best_individuals()`.
`solutions` and `best` read those two sequences off the final search
state; `_get_best_individuals` and the archive live outside the source
files under verification and are parameters. -/
def generate_tests_result {σ C : Type} (resourcesLeft : σ → Bool)
    (coveredCount : σ → Nat) (numberOfGoals : Nat)
    (evolveStep targetedStep : σ → σ) (solutions best : σ → List C)
    (fuel : Nat) (s0 : σ) : List C :=
  let sF := finalSearchState resourcesLeft coveredCount numberOfGoals
    evolveStep targetedStep fuel s0
  if (solutions sF).length > 0 then create_test_suite (solutions sF)
  else create_test_suite (best sF)

/-- `GenericField` (lines 231-272 of `genericaccessibleobject.py`): an
owner type (opaque identity, represented by `Nat`), a field name and an
optional field type. -/
structure GenericField where
  owner : Nat
  field : String
  fieldType : Option Nat

/-- `GenericField.__eq__` (lines 258-263): after the identity and
`isinstance` checks (subsumed here by both arguments having type
`GenericField`), the source returns
`self._owner == other._owner and self._field == self._field` — note that
the right conjunct compares the receiver's field name with itself. -/
def GenericField.eq (a b : GenericField) : Bool :=
  a.owner == b.owner && (a.field == a.field)

/-- `GenericField.__hash__` (lines 265-266):
`31 + 17 * hash(self._owner) + 17 * hash(self._field)`, with Python's
built-in `hash` on types and strings abstracted as `hashT` and `hashS`. -/
def GenericField.hash (hashT : Nat → Int) (hashS : String → Int)
    (f : GenericField) : Int :=
  31 + 17 * hashT f.owner + 17 * hashS f.field

/-- The four concrete subclasses of `GenericAccessibleObject`
(`genericaccessibleobject.py`): a constructor carries its owner and
inferred signature, a method its owner, callable and signature, a function
its callable and signature, and a field its owner, name and optional type
(owners, callables, types and signatures are opaque identities,
represented by `Nat`). -/
inductive GenericAccessibleObject where
  | constructor (owner : Nat) (inferredSignature : Nat)
  | method (owner : Nat) (callable : Nat) (inferredSignature : Nat)
  | function (callable : Nat) (inferredSignature : Nat)
  | field (owner : Nat) (fieldName : String) (fieldType : Option Nat)

/-- `is_method` returns `False` on the base class (lines 41-47) and is
overridden to return `True` in `GenericMethod` (lines 177-178). -/
def GenericAccessibleObject.is_method : GenericAccessibleObject → Bool
  | GenericAccessibleObject.method _ _ _ => true
  | _ => false

/-- `is_constructor` returns `False` on the base class (lines 50-56) and
is overridden to return `True` in `GenericConstructor` (lines 151-152). -/
def GenericAccessibleObject.is_constructor : GenericAccessibleObject → Bool
  | GenericAccessibleObject.constructor _ _ => true
  | _ => false

/-- `is_function` returns `False` on the base class (lines 59-65) and is
overridden to return `True` in `GenericFunction` (lines 211-212). -/
def GenericAccessibleObject.is_function : GenericAccessibleObject → Bool
  | GenericAccessibleObject.function _ _ => true
  | _ => false

/-- `is_field` returns `False` on the base class (lines 68-74) and is
overridden to return `True` in `GenericField` (lines 239-240). -/
def GenericAccessibleObject.is_field : GenericAccessibleObject → Bool
  | GenericAccessibleObject.field _ _ _ => true
  | _ => false

theorem length_insertDesc {C : Type} (key : C → Int) (x : C) (l : List C) :
    (insertDesc key x l).length = l.length + 1 := by
  induction l with
  | nil => rfl
  | cons y ys ih =>
    simp only [insertDesc]
    split <;> simp [ih]

theorem length_sortDesc {C : Type} (key : C → Int) (l : List C) :
    (sortDesc key l).length = l.length := by
  induction l with
  | nil => rfl
  | cons x xs ih =>
    simp only [sortDesc, List.foldr] at ih ⊢
    rw [length_insertDesc, ih, List.length_cons]

theorem truncationLoop_eq_spec {C : Type} (d : List C → C → Int) :
    ∀ (fronts : List (List C)) (remain : Nat),
      truncationLoop d remain fronts = truncationSpec d remain fronts := by
  intro fronts
  induction fronts with
  | nil => intro remain; rfl
  | cons front rest ih =>
    intro remain
    by_cases h0 : front.length = 0
    · simp [truncationLoop, truncationSpec, h0]
    · by_cases h1 : front.length ≤ remain
      · have hr : remain ≠ 0 := by omega
        simp [truncationLoop, truncationSpec, h0, h1, hr, ih]
      · by_cases hr : remain = 0
        · subst hr
          simp [truncationLoop, truncationSpec, h0, h1]
        · simp [truncationLoop, truncationSpec, h0, h1, hr]

theorem truncationLoop_length {C : Type} (d : List C → C → Int) :
    ∀ (fronts : List (List C)) (remain : Nat),
      (∀ f ∈ fronts, f ≠ []) →
      remain ≤ (fronts.map List.length).sum →
      (truncationLoop d remain fronts).length = remain := by
  intro fronts
  induction fronts with
  | nil =>
    intro remain _ hsum
    simp at hsum
    simp [truncationLoop, hsum]
  | cons front rest ih =>
    intro remain hne hsum
    have hf : front ≠ [] := hne front (by simp)
    have h0 : front.length ≠ 0 := by simpa using hf
    simp only [List.map_cons, List.sum_cons] at hsum
    by_cases hr : remain = 0
    · simp [truncationLoop, hr]
    · by_cases h1 : front.length ≤ remain
      · have hrec := ih (remain - front.length)
          (fun f hmem => hne f (by simp [hmem])) (by omega)
        simp [truncationLoop, hr, h0, h1, hrec]
      · simp [truncationLoop, hr, h0, h1, List.length_take, length_sortDesc]
        omega

theorem truncationLoop_empty_front_aux {C : Type} (d : List C → C → Int) :
    ∀ (fs1 fs2 : List (List C)) (remain : Nat),
      (∀ f ∈ fs1, f ≠ []) →
      (fs1.map List.length).sum ≤ remain →
      truncationLoop d remain (fs1 ++ [] :: fs2) = fs1.flatten := by
  intro fs1
  induction fs1 with
  | nil =>
    intro fs2 remain _ _
    simp [truncationLoop]
  | cons f t ih =>
    intro fs2 remain hne hsum
    have hf : f ≠ [] := hne f (by simp)
    have h0 : f.length ≠ 0 := by simpa using hf
    simp only [List.map_cons, List.sum_cons] at hsum
    have hr : remain ≠ 0 := by omega
    have h1 : f.length ≤ remain := by omega
    have hrec := ih fs2 (remain - f.length)
      (fun g hmem => hne g (by simp [hmem])) (by omega)
    simp [truncationLoop, hr, h0, h1, hrec]

/-- C4: in `evolve_common`, truncation to population size proceeds
front-by-front in rank order: every front that fits entirely within the
remaining capacity is admitted whole after diversity assignment is
computed for it; the first front that does not fit entirely has diversity
assigned, is sorted by descending diversity distance, and only its top
remaining-capacity members are admitted, with all later members of that
front and all subsequent fronts discarded.  The source's admission loop
coincides with this description (`truncationSpec`) on every input. -/
theorem evolve_common_truncation_refines_spec {C : Type}
    (d : List C → C → Int) (ranking : List C → List (List C))
    (population offspring : List C) :
    evolve_common d ranking population offspring =
      truncationSpec d population.length (ranking (population ++ offspring)) := by
  unfold evolve_common
  exact truncationLoop_eq_spec d _ _

/-- C3 (counterexample): with a configured population size of 2, a current
population of one chromosome and one offspring chromosome, the union has
2 ≥ 2 members, yet after `evolve_common` the population has 1 member, not
2 — the code truncates to the *entry population's* size
(`remain = len(self._population)`), not to the configured size. -/
theorem evolve_common_not_configured_size_cex :
    (([0] ++ [1] : List Nat)).length ≥ 2 ∧
    (evolve_common (fun _ _ => (0 : Int)) (fun l => [l]) [0] [1]).length ≠ 2 := by
  decide

/-- C3 (amended): after every call to `evolve_common`, the population has
size exactly equal to the number of chromosomes in the population at entry
(the union, which contains the entry population as a prefix, is never
smaller than that capacity), provided the ranking partitions the union
into non-empty fronts; this equals the configured population size exactly
when the entry population already has the configured size. -/
theorem evolve_common_size_eq_entry_population {C : Type}
    (d : List C → C → Int) (ranking : List C → List (List C))
    (population offspring : List C)
    (hne : ∀ f ∈ ranking (population ++ offspring), f ≠ [])
    (hsum : (population ++ offspring).length ≤
      ((ranking (population ++ offspring)).map List.length).sum) :
    (evolve_common d ranking population offspring).length =
      population.length := by
  unfold evolve_common
  apply truncationLoop_length d _ _ hne
  have h : population.length ≤ (population ++ offspring).length := by simp
  omega

theorem evolve_common_size_eq_entry_population_witness :
    (∀ f ∈ [[1, 2]], f ≠ ([] : List Nat)) ∧
    (evolve_common (fun _ _ => (0 : Int)) (fun l => [l]) [1] [2]).length = 1 :=
  ⟨by decide,
    evolve_common_size_eq_entry_population _ _ _ _ (by decide) (by decide)⟩

/-- C8: during truncation in `evolve_common`, encountering a front with
zero members terminates the admission loop for that generation without
error, and the current (possibly under-full) population — the non-empty
fronts admitted before it — is accepted as-is; everything after the empty
front is ignored. -/
theorem empty_front_terminates_truncation {C : Type}
    (d : List C → C → Int) (ranking : List C → List (List C))
    (population offspring : List C) (fs1 fs2 : List (List C))
    (hrank : ranking (population ++ offspring) = fs1 ++ [] :: fs2)
    (hne : ∀ f ∈ fs1, f ≠ [])
    (hfit : (fs1.map List.length).sum ≤ population.length) :
    evolve_common d ranking population offspring = fs1.flatten ∧
    (fs1.flatten).length ≤ population.length := by
  unfold evolve_common
  rw [hrank]
  refine ⟨truncationLoop_empty_front_aux d fs1 fs2 _ hne hfit, ?_⟩
  rw [List.length_flatten]
  exact hfit

theorem empty_front_terminates_truncation_witness :
    (∀ f ∈ [[9]], f ≠ ([] : List Nat)) ∧
    evolve_common (fun _ _ => (0 : Int)) (fun _ => [[9], [], [7]])
      [1, 2, 3] [] = [9] :=
  ⟨by decide,
    (empty_front_terminates_truncation _ _ [1, 2, 3] [] [[9]] [[7]] rfl
      (by decide) (by decide)).1⟩

theorem generate_tests_loop_succ {σ : Type} (rl : σ → Bool) (cc : σ → Nat)
    (g : Nat) (ev tg : σ → σ) (fuel : Nat) (s : σ) (last its : Nat) :
    generate_tests_loop rl cc g ev tg (fuel + 1) s last its =
      if rl s && !(g - cc s == 0) then
        if (if cc s = last then its + 1 else 0) > 25 then
          consFlag true
            (generate_tests_loop rl cc g ev tg fuel (tg s) (cc s) 0)
        else
          consFlag false
            (generate_tests_loop rl cc g ev tg fuel (ev s) (cc s)
              (if cc s = last then its + 1 else 0))
      else (s, [], its) := rfl

theorem generate_tests_loop_constant_aux {σ : Type} (rl : σ → Bool)
    (cc : σ → Nat) (g : Nat) (ev tg : σ → σ) (k : Nat)
    (hrl : ∀ s, rl s = true) (hcc : ∀ s, cc s = k) (hg : g - k ≠ 0) :
    ∀ (n : Nat) (j : Nat) (s : σ), j + n = 25 →
      (generate_tests_loop rl cc g ev tg (n + 1) s k j).2.1 =
        List.replicate n false ++ [true] ∧
      (generate_tests_loop rl cc g ev tg (n + 1) s k j).2.2 = 0 := by
  have hne2 : (g - k == 0) = false := by simpa using hg
  intro n
  induction n with
  | zero =>
    intro j s hj
    have hj25 : j = 25 := by omega
    subst hj25
    rw [generate_tests_loop_succ, hrl s, hcc s]
    simp [hne2, generate_tests_loop, consFlag]
  | succ n ihn =>
    intro j s hj
    have hlt : ¬(j + 1 > 25) := by omega
    have hr := ihn (j + 1) (ev s) (by omega)
    rw [generate_tests_loop_succ, hrl s, hcc s]
    simp [hne2, hlt, consFlag, List.replicate_succ, hr.1, hr.2]

/-- C2: in the main loop of `generate_tests`, whenever the covered-goals
count has stayed constant so that the stagnation counter reaches 25 and
the next iteration again observes no change, that iteration performs the
targeted evolution step instead of a normal step and resets the counter to
0 (first conjunct, shown on a single loop iteration); in particular, when
the covered-goals count is constant for exactly 26 iterations with
resources remaining and an uncovered goal, the targeted path is invoked
exactly once — at the 26th iteration — and the counter is 0 immediately
afterwards (second conjunct: the branch trace is 25 normal steps followed
by one targeted step, and the final counter is 0). -/
theorem stagnation_trigger_fires_at_26 {σ : Type} (rl : σ → Bool)
    (cc : σ → Nat) (g : Nat) (ev tg : σ → σ) (k : Nat)
    (hrl : ∀ s, rl s = true) (hcc : ∀ s, cc s = k) (hg : g - k ≠ 0) :
    (∀ s : σ,
      generate_tests_loop rl cc g ev tg 1 s k 25 = (tg s, [true], 0)) ∧
    (∀ s : σ,
      (generate_tests_loop rl cc g ev tg 26 s k 0).2.1 =
        List.replicate 25 false ++ [true] ∧
      (generate_tests_loop rl cc g ev tg 26 s k 0).2.2 = 0) := by
  have hne2 : (g - k == 0) = false := by simpa using hg
  constructor
  · intro s
    show generate_tests_loop rl cc g ev tg (0 + 1) s k 25 = (tg s, [true], 0)
    rw [generate_tests_loop_succ, hrl s, hcc s]
    simp [hne2, generate_tests_loop, consFlag]
  · intro s
    exact generate_tests_loop_constant_aux rl cc g ev tg k hrl hcc hg 25 0 s rfl

theorem stagnation_trigger_fires_at_26_witness :
    (∀ s : Unit, (fun _ : Unit => true) s = true) ∧
    (generate_tests_loop (fun _ : Unit => true) (fun _ => 0) 1 id id
      26 () 0 0).2.1 = List.replicate 25 false ++ [true] :=
  ⟨fun _ => rfl,
    ((stagnation_trigger_fires_at_26 (fun _ : Unit => true) (fun _ => 0) 1
      id id 0 (fun _ => rfl) (fun _ => rfl) (by decide)).2 ()).1⟩

/-- C5: when the main loop of `generate_tests` exits, the engine returns a
test suite built from the archive's `solutions` if that sequence is
non-empty, and otherwise from `_get_best_individuals()` — per the spec,
the best-ranked chromosomes of the final population (`solutions` and
`best` read those sequences off the final search state). -/
theorem generate_tests_result_selection {σ C : Type} (rl : σ → Bool)
    (cc : σ → Nat) (g : Nat) (ev tg : σ → σ) (solutions best : σ → List C)
    (fuel : Nat) (s0 : σ) :
    (solutions (finalSearchState rl cc g ev tg fuel s0) ≠ [] →
      generate_tests_result rl cc g ev tg solutions best fuel s0 =
        create_test_suite
          (solutions (finalSearchState rl cc g ev tg fuel s0))) ∧
    (solutions (finalSearchState rl cc g ev tg fuel s0) = [] →
      generate_tests_result rl cc g ev tg solutions best fuel s0 =
        create_test_suite (best (finalSearchState rl cc g ev tg fuel s0))) := by
  unfold generate_tests_result
  constructor
  · intro h
    simp [List.length_pos.mpr h]
  · intro h
    simp [h]

theorem generate_tests_result_selection_witness :
    (fun _ : Unit => ([7] : List Nat))
        (finalSearchState (fun _ : Unit => true) (fun _ => 0) 1 id id 0 ())
      ≠ [] ∧
    generate_tests_result (fun _ : Unit => true) (fun _ => 0) 1 id id
      (fun _ => [7]) (fun _ => ([] : List Nat)) 0 () =
      create_test_suite [7] :=
  ⟨by decide,
    (generate_tests_result_selection (fun _ : Unit => true) (fun _ => 0) 1
      id id (fun _ => [7]) (fun _ => ([] : List Nat)) 0 ()).1 (by decide)⟩

/-- C7 (counterexample): with zero goals the set of uncovered goals is
empty immediately after initialization and the loop body never executes,
but the archive then holds no solutions, so `generate_tests` returns the
suite built from `_get_best_individuals()` (here `[42]`), not the suite
built from the archive's (empty) post-initialization `solutions`. -/
theorem zero_goals_result_not_solutions_cex :
    generate_tests_result (fun _ : Unit => true) (fun _ => 0) 0 id id
        (fun _ => ([] : List Nat)) (fun _ => [42]) 5 () ≠
      create_test_suite ((fun _ : Unit => ([] : List Nat)) ()) := by
  decide

/-- C7 (amended): if the set of uncovered goals is empty immediately after
initialization (including the case of zero goals), the main loop body of
`generate_tests` never executes, and the returned result is the test suite
built from the archive's post-initialization `solutions` when that
sequence is non-empty; when it is empty — notably in the zero-goals case,
where the archive holds no solutions — the result falls back to the suite
built from `_get_best_individuals()`. -/
theorem no_uncovered_goals_skips_loop {σ C : Type} (rl : σ → Bool)
    (cc : σ → Nat) (g : Nat) (ev tg : σ → σ) (solutions best : σ → List C)
    (fuel : Nat) (s0 : σ) (h : g - cc s0 = 0) :
    generate_tests_loop rl cc g ev tg fuel s0 (cc s0) 0 = (s0, [], 0) ∧
    (solutions s0 ≠ [] →
      generate_tests_result rl cc g ev tg solutions best fuel s0 =
        create_test_suite (solutions s0)) ∧
    (solutions s0 = [] →
      generate_tests_result rl cc g ev tg solutions best fuel s0 =
        create_test_suite (best s0)) := by
  have hloop : generate_tests_loop rl cc g ev tg fuel s0 (cc s0) 0 =
      (s0, [], 0) := by
    cases fuel with
    | zero => rfl
    | succ n =>
      rw [generate_tests_loop_succ]
      simp [h]
  refine ⟨hloop, ?_, ?_⟩
  · intro hs
    unfold generate_tests_result finalSearchState
    rw [hloop]
    simp [List.length_pos.mpr hs]
  · intro hs
    unfold generate_tests_result finalSearchState
    rw [hloop]
    simp [hs]

theorem no_uncovered_goals_skips_loop_witness :
    (1 - (fun _ : Unit => 1) () = 0) ∧
    generate_tests_loop (fun _ : Unit => true) (fun _ => 1) 1 id id
      4 () 1 0 = ((), [], 0) ∧
    generate_tests_result (fun _ : Unit => true) (fun _ => 1) 1 id id
      (fun _ => [3]) (fun _ => ([] : List Nat)) 4 () =
      create_test_suite [3] :=
  ⟨by decide,
    (no_uncovered_goals_skips_loop (fun _ : Unit => true) (fun _ => 1) 1
      id id (fun _ => [3]) (fun _ => ([] : List Nat)) 4 () (by decide)).1,
    (no_uncovered_goals_skips_loop (fun _ : Unit => true) (fun _ => 1) 1
      id id (fun _ => [3]) (fun _ => ([] : List Nat)) 4 ()
      (by decide)).2.1 (by decide)⟩

/-- C1 (code bug, evaluated at a failing input): seeding returns the one
candidate `0`, the configured population size is 2, mutation always
changes its input (`t + 1`) and keeps it non-empty.  The candidate set
grown in steps 2-3 is `[0, 1]` (the wrapped seed plus one accepted
mutant), but the set actually fed into `evolve_common` — line 107 passes
`test_cases` — is the raw seeded list `[0]`, which differs from the grown
set and is smaller than the configured population size. -/
theorem evolve_targeted_feeds_raw_seeds :
    evolve_targeted (fun t => t + 1) (fun _ => true) (fun _ => 1) 2 [0]
        ([0] : List Nat) = Except.ok ([0, 1], [0]) ∧
    ([0] : List Nat) ≠ [0, 1] ∧ ([0] : List Nat).length < 2 :=
  ⟨rfl, by decide, by decide⟩

theorem growSeededCandidates_no_emptyChoice {C : Type} (mutateClone : C → C)
    (changed : C → Bool) (size : C → Nat) (popSize : Nat)
    (testCases : List C) (h : testCases ≠ []) :
    ∀ (picks : List Nat) (chroms : List C),
      growSeededCandidates mutateClone changed size popSize testCases picks
        chroms ≠ Except.error TargetedError.emptyChoice := by
  intro picks
  induction picks with
  | nil =>
    intro chroms
    simp only [growSeededCandidates]
    split <;> simp
  | cons p ps ih =>
    intro chroms
    simp only [growSeededCandidates]
    by_cases hlt : chroms.length < popSize
    · rw [if_pos hlt]
      cases hget : testCases.get? (p % testCases.length) with
      | none =>
        exfalso
        have hle := List.get?_eq_none.mp hget
        have hpos : 0 < testCases.length := List.length_pos.mpr h
        have hmod := Nat.mod_lt p hpos
        omega
      | some t =>
        dsimp only
        by_cases hacc : changed (mutateClone t) = true ∧
            0 < size (mutateClone t)
        · simp only [if_pos hacc]
          exact ih _
        · simp only [if_neg hacc]
          exact ih _
    · rw [if_neg hlt]
      simp

theorem growSeededCandidates_filters {C : Type} (mutateClone : C → C)
    (changed : C → Bool) (size : C → Nat) (popSize k : Nat)
    (testCases : List C) :
    ∀ (picks : List Nat) (chroms grown : List C),
      k ≤ chroms.length →
      (∀ c ∈ chroms.drop k, changed c = true ∧ 0 < size c) →
      growSeededCandidates mutateClone changed size popSize testCases picks
        chroms = Except.ok grown →
      ∀ c ∈ grown.drop k, changed c = true ∧ 0 < size c := by
  intro picks
  induction picks with
  | nil =>
    intro chroms grown hk hinv heq
    simp only [growSeededCandidates] at heq
    split at heq
    · exact absurd heq (by simp)
    · simp only [Except.ok.injEq] at heq
      subst heq
      exact hinv
  | cons p ps ih =>
    intro chroms grown hk hinv heq
    simp only [growSeededCandidates] at heq
    split at heq
    · cases hget : testCases.get? (p % testCases.length) with
      | none =>
        rw [hget] at heq
        exact absurd heq (by simp)
      | some t =>
        rw [hget] at heq
        simp only at heq
        split at heq
        · rename_i hacc
          refine ih (chroms ++ [mutateClone t]) grown (by simp; omega) ?_ heq
          intro c hc
          rw [List.drop_append_of_le_length hk] at hc
          rcases List.mem_append.mp hc with hc1 | hc2
          · exact hinv c hc1
          · have hct : c = mutateClone t := by simpa using hc2
            subst hct
            exact hacc
        · exact ih chroms grown hk hinv heq
    · simp only [Except.ok.injEq] at heq
      subst heq
      exact hinv

/-- C6 (counterexample): with a positive configured population size (1)
and the empty candidate sequence from the seeding collaborator, the
mutation loop of `evolve_targeted` immediately calls `randomness.choice`
on the empty seeded list, which fails (Python raises) rather than being
tolerated. -/
theorem evolve_targeted_empty_seed_error_cex :
    evolve_targeted (fun t : Nat => t) (fun _ => true) (fun _ => 1) 1 [0]
        ([] : List Nat) = Except.error TargetedError.emptyChoice := rfl

/-- C6 (amended): for every *non-empty* candidate sequence returned by
the seeding collaborator, `evolve_targeted` tolerates it without raising:
the only failure mode is exhausting the random-draw budget (the loop still
running), never the empty-sequence exception of `randomness.choice`; and
empty or unchanged mutants are filtered out during targeted seeding — on
success, every candidate added to the grown set beyond the wrapped seeds
has actually changed and is non-empty.  An empty candidate sequence with a
positive configured population size, by contrast, makes the uniform
random choice fail. -/
theorem evolve_targeted_tolerates_nonempty {C : Type} (mutateClone : C → C)
    (changed : C → Bool) (size : C → Nat) (popSize : Nat)
    (picks : List Nat) (testCases : List C) (h : testCases ≠ []) :
    (evolve_targeted mutateClone changed size popSize picks testCases ≠
      Except.error TargetedError.emptyChoice) ∧
    (∀ grown fed,
      evolve_targeted mutateClone changed size popSize picks testCases =
        Except.ok (grown, fed) →
      ∀ c ∈ grown.drop testCases.length, changed c = true ∧ 0 < size c) := by
  constructor
  · intro hcontra
    unfold evolve_targeted at hcontra
    cases hg : growSeededCandidates mutateClone changed size popSize
        testCases picks testCases with
    | ok grown => rw [hg] at hcontra; simp at hcontra
    | error e =>
      rw [hg] at hcontra
      simp only [Except.error.injEq] at hcontra
      subst hcontra
      exact growSeededCandidates_no_emptyChoice mutateClone changed size
        popSize testCases h picks testCases hg
  · intro grown fed heq
    unfold evolve_targeted at heq
    cases hg : growSeededCandidates mutateClone changed size popSize
        testCases picks testCases with
    | error e => rw [hg] at heq; simp at heq
    | ok g2 =>
      rw [hg] at heq
      simp only [Except.ok.injEq, Prod.mk.injEq] at heq
      obtain ⟨hg2, -⟩ := heq
      subst hg2
      exact growSeededCandidates_filters mutateClone changed size popSize
        testCases.length testCases picks testCases _ (Nat.le_refl _)
        (by simp) hg

theorem evolve_targeted_tolerates_nonempty_witness :
    ([5] : List Nat) ≠ [] ∧
    evolve_targeted (fun t : Nat => t) (fun _ => true) (fun _ => 1) 1 []
        ([5] : List Nat) ≠ Except.error TargetedError.emptyChoice :=
  ⟨by decide,
    (evolve_targeted_tolerates_nonempty (fun t : Nat => t) (fun _ => true)
      (fun _ => 1) 1 [] [5] (by decide)).1⟩

/-- C9: for every pair of `GenericField` objects whose owners are equal,
`__eq__` returns `True` regardless of whether their field names differ
(the source compares `self._field` with itself), while `__hash__`
incorporates the field name; hence, for any hash functions that
distinguish two field names, there exist pairs of `GenericField` objects
that are equal under `__eq__` but have different hash values. -/
theorem genericfield_eq_hash_mismatch :
    (∀ a b : GenericField, a.owner = b.owner →
      GenericField.eq a b = true) ∧
    (∀ (hashT : Nat → Int) (hashS : String → Int) (s1 s2 : String),
      hashS s1 ≠ hashS s2 →
      ∃ a b : GenericField, GenericField.eq a b = true ∧
        a.field ≠ b.field ∧
        GenericField.hash hashT hashS a ≠ GenericField.hash hashT hashS b) := by
  constructor
  · intro a b hab
    simp [GenericField.eq, hab]
  · intro hashT hashS s1 s2 hs
    refine ⟨⟨0, s1, none⟩, ⟨0, s2, none⟩, ?_, ?_, ?_⟩
    · simp [GenericField.eq]
    · exact fun hf => hs (congrArg hashS hf)
    · simp only [GenericField.hash]
      omega

theorem genericfield_eq_hash_mismatch_witness :
    GenericField.eq ⟨0, "x", none⟩ ⟨0, "y", none⟩ = true ∧
    (fun s : String => (s.length : Int)) "a" ≠
      (fun s : String => (s.length : Int)) "ab" ∧
    (∃ a b : GenericField, GenericField.eq a b = true ∧
      a.field ≠ b.field ∧
      GenericField.hash (fun _ => 0) (fun s => (s.length : Int)) a ≠
        GenericField.hash (fun _ => 0) (fun s => (s.length : Int)) b) :=
  ⟨genericfield_eq_hash_mismatch.1 ⟨0, "x", none⟩ ⟨0, "y", none⟩ rfl,
    by decide,
    genericfield_eq_hash_mismatch.2 (fun _ => 0)
      (fun s => (s.length : Int)) "a" "ab" (by decide)⟩

/-- C10: for every instance of the four concrete accessible-object
classes, exactly one of `is_constructor()`, `is_method()`, `is_function()`
and `is_field()` returns `True` — the one matching the instance's class —
and the other three return `False`. -/
theorem accessible_object_kind_predicates :
    (∀ g : GenericAccessibleObject,
      (g.is_constructor).toNat + (g.is_method).toNat +
        (g.is_function).toNat + (g.is_field).toNat = 1) ∧
    (∀ o s, (GenericAccessibleObject.constructor o s).is_constructor = true ∧
      (GenericAccessibleObject.constructor o s).is_method = false ∧
      (GenericAccessibleObject.constructor o s).is_function = false ∧
      (GenericAccessibleObject.constructor o s).is_field = false) ∧
    (∀ o c s, (GenericAccessibleObject.method o c s).is_method = true ∧
      (GenericAccessibleObject.method o c s).is_constructor = false ∧
      (GenericAccessibleObject.method o c s).is_function = false ∧
      (GenericAccessibleObject.method o c s).is_field = false) ∧
    (∀ c s, (GenericAccessibleObject.function c s).is_function = true ∧
      (GenericAccessibleObject.function c s).is_constructor = false ∧
      (GenericAccessibleObject.function c s).is_method = false ∧
      (GenericAccessibleObject.function c s).is_field = false) ∧
    (∀ o f t, (GenericAccessibleObject.field o f t).is_field = true ∧
      (GenericAccessibleObject.field o f t).is_constructor = false ∧
      (GenericAccessibleObject.field o f t).is_method = false ∧
      (GenericAccessibleObject.field o f t).is_function = false) := by
  refine ⟨fun g => ?_, fun o s => ⟨rfl, rfl, rfl, rfl⟩,
    fun o c s => ⟨rfl, rfl, rfl, rfl⟩, fun c s => ⟨rfl, rfl, rfl, rfl⟩,
    fun o f t => ⟨rfl, rfl, rfl, rfl⟩⟩
  cases g <;> rfl

end CodaMOSA
